import Mathlib

/-!
Verification of the bliss-initramfs staging engine against its specification.

The Python sources (pkg/libs/Tools.py, pkg/libs/Core.py, pkg/hooks/Hook.py)
are shallowly embedded below: the filesystem is a partial map from path
strings to entries, shell/system introspection (grep/ls/ldd/modprobe/file)
is a record of query functions, and each Python method becomes a Lean
function over these.
-/

namespace Bliss

/-! ## Filesystem model

A path maps to `none` (absent), a regular file with abstract content, or a
directory.  `shutil.copy`, `os.remove`, `os.makedirs`, `shutil.rmtree` are
modelled as updates on this map.
-/

inductive Entry where
  | file (content : Nat)
  | dir
deriving DecidableEq, Repr

abbrev FS := String → Option Entry

def updateFS (fs : FS) (p : String) (e : Option Entry) : FS :=
  fun q => if q = p then e else fs q

def pathExists (fs : FS) (p : String) : Bool :=
  (fs p).isSome

def isFile (fs : FS) (p : String) : Bool :=
  match fs p with
  | some (.file _) => true
  | _ => false

def isDir (fs : FS) (p : String) : Bool :=
  match fs p with
  | some .dir => true
  | _ => false

/-! ## String primitives

Python's str.strip / str.split / str.lower and prefix tests, implemented
structurally over character lists so that concrete instances reduce. -/

/-- Python whitespace for str.strip(): tab, LF, VT, FF, CR, space. -/
def isPySpace (c : Char) : Bool :=
  c.toNat = 9 || c.toNat = 10 || c.toNat = 11 || c.toNat = 12 ||
  c.toNat = 13 || c.toNat = 32

/-- Model of Python str.strip(). -/
def pyStrip (s : String) : String :=
  String.mk (((s.toList.dropWhile isPySpace).reverse.dropWhile isPySpace).reverse)

/-- Model of Python str.split(sep) for a one-character separator: splits at
every occurrence, keeping empty fields. -/
def pySplitGo (sep : Char) : List Char → List Char → List String
  | [], acc => [String.mk acc.reverse]
  | c :: rest, acc =>
    if c = sep then String.mk acc.reverse :: pySplitGo sep rest []
    else pySplitGo sep rest (c :: acc)

def pySplit (sep : Char) (s : String) : List String :=
  pySplitGo sep s.toList []

/-- Model of Python str.lower() (ASCII). -/
def pyLower (s : String) : String :=
  String.mk (s.toList.map Char.toLower)

/-- Whether `pre` is a leading piece of `s`. -/
def strStartsWith (pre s : String) : Bool :=
  pre.toList.isPrefixOf s.toList

/-! ## Path helpers: os.path.dirname -/

/-- Characters of `l` up to and including the last slash; `[]` if no slash. -/
def dropAfterLastSlash : List Char → List Char
  | [] => []
  | c :: rest =>
    let r := dropAfterLastSlash rest
    if r = [] then (if c = '/' then [c] else []) else c :: r

/-- Removes trailing slashes. -/
def rstripSlashes (l : List Char) : List Char :=
  (l.reverse.dropWhile (fun c => c = '/')).reverse

/-- Model of Python os.path.dirname: everything before the final slash,
with trailing slashes stripped unless the result would be empty. -/
def dirname (p : String) : String :=
  let head := dropAfterLastSlash p.toList
  let stripped := rstripSlashes head
  if stripped = [] then String.mk head else String.mk stripped

/-- The chain of iterated dirnames of `d`, outermost ancestor first,
`d` itself last.  `fuel` bounds the recursion (use `d.length`). -/
def parentChain : Nat → String → List String
  | 0, d => [d]
  | fuel + 1, d =>
    if dirname d = "" ∨ dirname d = d then [d]
    else parentChain fuel (dirname d) ++ [d]

/-- Model of Python os.makedirs(d): creates every missing directory on the
ancestor chain of `d`.  Raises (flag `false`, filesystem untouched) when an
ancestor exists as a regular file (NotADirectoryError) or `d` itself already
exists (FileExistsError); on a real filesystem nothing has been created at
the point those exceptions fire. -/
def mkdirs (fs : FS) (d : String) : FS × Bool :=
  if (parentChain d.length d).dropLast.any (fun a => isFile fs a) || (fs d).isSome then
    (fs, false)
  else
    (fun p => if p ∈ parentChain d.length d ∧ fs p = none then some .dir else fs p, true)

/-! ## Tools.Copy (pkg/libs/Tools.py, lines 128-175) -/

inductive CopyStatus where
  /-- post-check passed: destination is a regular file -/
  | ok
  /-- post-check failed but dontFail was set: Tools.Warn, pipeline continues -/
  | warned
  /-- post-check failed without dontFail: Tools.Fail (fatal) -/
  | failed
  /-- an uncaught Python exception escaped (shutil.copy / os.makedirs) -/
  | crashed
deriving DecidableEq, Repr

/-- `targetFile` of Tools.Copy: `directoryPrefix + "/" + vFile` when a prefix
was passed, else `vFile`. -/
def copyTargetFile ( directoryPrefix : Option String) (vFile : String) : String :=
  match directoryPrefix with
  | some pre => pre ++ "/" ++ vFile
  | none => vFile

/-- Model of shutil.copy(src, dst) under the precondition that `src` is a
regular file: the destination becomes a fresh copy of the source content. -/
def copyFileTo (fs : FS) (src dst : String) : FS :=
  match fs src with
  | some (.file c) => updateFS fs dst (some (.file c))
  | _ => fs

/-- The body of Tools.Copy before the final existence check.  The flag is
`false` when an uncaught exception escapes (shutil.copy on a missing or
directory source after os.remove, or os.makedirs failing). -/
def copyStep (fs : FS) (path targetFile : String) : FS × Bool :=
  if pathExists fs path then
    if isFile fs path then
      -- os.remove(path); shutil.copy(targetFile, path)
      match updateFS fs path none targetFile with
      | some (.file c) => (updateFS (updateFS fs path none) path (some (.file c)), true)
      | _ => (updateFS fs path none, false)
    else
      -- destination exists but is not a regular file: no action taken
      (fs, true)
  else
    if isFile fs targetFile then
      if isDir fs (dirname path) then
        (copyFileTo fs targetFile path, true)
      else
        -- os.makedirs(os.path.dirname(path)); shutil.copy(targetFile, path)
        let m := mkdirs fs (dirname path)
        if m.2 then (copyFileTo m.1 targetFile path, true) else (m.1, false)
    else if isDir fs targetFile then
      -- os.makedirs(path)
      mkdirs fs path
    else
      (fs, true)

/-- Model of Tools.Copy.  `temp` is var.temp (the build root);
`path = var.temp + "/" + targetFile` in both prefix branches of the source.
After the body, the source checks `os.path.isfile(path)` and either
succeeds, warns (dontFail) or calls Tools.Fail. -/
def Tools.Copy (fs : FS) (temp vFile : String) ( directoryPrefix : Option String)
    (dontFail : Bool) : FS × CopyStatus :=
  let targetFile := copyTargetFile directoryPrefix vFile
  let path := temp ++ "/" ++ targetFile
  let r := copyStep fs path targetFile
  if r.2 = false then (r.1, .crashed)
  else if isFile r.1 path then (r.1, .ok)
  else if dontFail then (r.1, .warned)
  else (r.1, .failed)

/-! ## Tools.Clean / Tools.Fail (pkg/libs/Tools.py, lines 104-119, 294-300) -/

/-- Model of shutil.rmtree: removes `d` and everything strictly below it. -/
def rmtree (fs : FS) (d : String) : FS :=
  fun p => if p = d ∨ strStartsWith (d ++ "/") p then none else fs p

/-- Model of Tools.Clean: deletes the temporary build root if it exists. -/
def Tools.Clean (fs : FS) (temp : String) : FS :=
  if pathExists fs temp then rmtree fs temp else fs

/-- Model of Tools.Fail: prints a diagnostic (no state effect), runs
Tools.Clean, and terminates the process with exit status 1. -/
def Tools.Fail (fs : FS) (temp : String) : FS × Nat :=
  (Tools.Clean fs temp, 1)

/-! ## Feature hooks and selection (pkg/hooks/Hook.py, pkg/libs/Core.py 151-201)

Per-hook class state after Core.LoadSettings has run: each hook owns its
enabled flag and its file manifest; Hook.AddFile appends to `_files`. -/

structure HookState where
  baseEnabled : Bool
  modulesEnabled : Bool
  zfsEnabled : Bool
  luksEnabled : Bool
  firmwareEnabled : Bool
  baseFiles : List String
  modulesFiles : List String
  zfsFiles : List String
  luksFiles : List String
  firmwareFiles : List String
deriving DecidableEq, Repr

/-- Effect of the "zfs" feature branch: Zfs.Enable(); Modules.AddFile("zfs"). -/
def applyZfsFeature (st : HookState) : HookState :=
  { st with zfsEnabled := true, modulesFiles := st.modulesFiles ++ ["zfs"] }

/-- Effect of the "luks" feature branch: Luks.Enable(). -/
def applyLuksFeature (st : HookState) : HookState :=
  { st with luksEnabled := true }

inductive SelectOutcome where
  /-- the for-loop over features ran to completion -/
  | completed (st : HookState)
  /-- feature "exit": Tools.Warn("Exiting."); quit(0) -/
  | exitSuccess (st : HookState)
  /-- unrecognized feature: Tools.Warn("Invalid Option. Exiting."); quit(1);
      this terminates the process directly, without calling Tools.Fail -/
  | invalidQuit (st : HookState)
deriving DecidableEq, Repr

/-- The feature for-loop of Core.PrintMenuAndGetDesiredFeatures
(pkg/libs/Core.py lines 170-186). -/
def featureLoop (st : HookState) : List String → SelectOutcome
  | [] => .completed st
  | f :: rest =>
    if f = "zfs" then featureLoop (applyZfsFeature st) rest
    else if f = "luks" then featureLoop (applyLuksFeature st) rest
    else if f = "basic" then featureLoop st rest
    else if f = "exit" then .exitSuccess st
    else .invalidQuit st

/-- Core.PrintMenuAndGetDesiredFeatures with a feature list already in hand.
The selection stage performs no filesystem operations: both quit paths
terminate with the filesystem untouched (neither calls Tools.Clean). -/
def PrintMenuAndGetDesiredFeatures (fs : FS) (st : HookState)
    (features : List String) : SelectOutcome × FS :=
  (featureLoop st features, fs)

/-! ## Core.ConvertNumberedFeaturesToNamedList (pkg/libs/Core.py 188-201) -/

/-- The Tools._features dictionary {1: "ZFS", 2: "LUKS", 3: "Basic"};
`none` models a KeyError on lookup. -/
def toolsFeatures (n : Int) : Option String :=
  if n = 1 then some "ZFS" else if n = 2 then some "LUKS"
  else if n = 3 then some "Basic" else none

/-- Valid digit/underscore tail for Python int(): underscores must sit
between digits. -/
def pyDigitsTail : List Char → Bool
  | [] => true
  | c :: rest =>
    if c.isDigit then pyDigitsTail rest
    else if c = '_' then
      match rest with
      | d :: _ => d.isDigit && pyDigitsTail rest
      | [] => false
    else false

def pyDigitsValid : List Char → Bool
  | [] => false
  | c :: rest => c.isDigit && pyDigitsTail (c :: rest)

def pyDigitsVal (cs : List Char) : Nat :=
  cs.foldl (fun a c => if c.isDigit then a * 10 + (c.toNat - '0'.toNat) else a) 0

/-- Model of Python int(s) in base 10: strips whitespace, optional sign,
digits with underscores between digits; `none` models a ValueError. -/
def pyParseInt (s : String) : Option Int :=
  match (pyStrip s).toList with
  | [] => none
  | c :: rest =>
    let signed : Bool × List Char :=
      if c = '-' then (true, rest)
      else if c = '+' then (false, rest)
      else (false, c :: rest)
    if pyDigitsValid signed.2 then
      some (if signed.1 then -(pyDigitsVal signed.2 : Int) else (pyDigitsVal signed.2 : Int))
    else none

inductive ConvertResult where
  /-- the function returned this list -/
  | ret (names : List String)
  /-- int(entry) raised a ValueError, which the except KeyError clause does
      not catch: the exception escapes the function -/
  | valueError (entry : String)
deriving DecidableEq, Repr

/-- The try-block loop of Core.ConvertNumberedFeaturesToNamedList:
appends Tools._features[int(entry)].lower() per entry; a KeyError clears the
accumulator and returns ["exit"]; a ValueError escapes. -/
def convertGo : List String → List String → ConvertResult
  | [], acc => .ret acc
  | entry :: rest, acc =>
    match pyParseInt entry with
    | none => .valueError entry
    | some n =>
      match toolsFeatures n with
      | none => .ret ["exit"]
      | some name => convertGo rest (acc ++ [pyLower name])

/-- Model of Core.ConvertNumberedFeaturesToNamedList over the raw
comma-separated input string. -/
def ConvertNumberedFeaturesToNamedList (input : String) : ConvertResult :=
  convertGo (pySplit ',' input) []

/-! ## Core.CopyDependencies (pkg/libs/Core.py 719-777) -/

/-- System introspection used by CopyDependencies: the exit code of
`grep -Uqs thiswillnevermatch <pattern>`, the output of `ls <pattern>`
(`none` models a CalledProcessError, caught by the bare except), and the
raw output of the ldd pipeline for a binary. -/
structure LibcQuery where
  grepExit : String → Nat
  lsOutput : String → Option String
  lddRaw : String → String

/-- The candidate interpreter patterns (possible_libc_paths). -/
def possibleLibcPaths (lib64 lib : String) : List String :=
  [lib64 ++ "/ld-linux-x86-64.so*", lib ++ "/ld-musl-x86_64.so*"]

/-- One iteration of the libc-probing loop.  The accumulator is
(bindeps, libc_found). -/
def libcStep (q : LibcQuery) (acc : Finset String × Bool) (libc : String) :
    Finset String × Bool :=
  if q.grepExit libc ≠ 0 ∧ q.grepExit libc ≠ 1 then acc
  else
    match q.lsOutput libc with
    | some interp => (insert interp acc.1, true)
    | none => acc

/-- Whether a candidate pattern resolves: grep exits 0 or 1 and ls succeeds. -/
def libcMatches (q : LibcQuery) (libc : String) : Bool :=
  (q.grepExit libc = 0 || q.grepExit libc = 1) && (q.lsOutput libc).isSome

/-- Libraries reported for one binary: the ldd pipeline output is stripped;
an empty result contributes nothing, otherwise it is split on newlines. -/
def lddLibraries (q : LibcQuery) (binary : String) : List String :=
  if pyStrip (q.lddRaw binary) = "" then []
  else pySplit (Char.ofNat 10) (pyStrip (q.lddRaw binary))

/-- Model of Core.CopyDependencies: probe both interpreter patterns (no
break: every matching pattern's interpreter is added), fail when none
matched, then union the ldd results of every binary in _binset. -/
def CopyDependencies (q : LibcQuery) (lib64 lib : String)
    (binset : List String) : Except String (Finset String) :=
  if ((possibleLibcPaths lib64 lib).foldl (libcStep q) (∅, false)).2 = false then
    .error "No libc interpreters were found!"
  else
    .ok (binset.foldl
      (fun bindeps binary =>
        (lddLibraries q binary).foldl (fun s l => insert l s) bindeps)
      ((possibleLibcPaths lib64 lib).foldl (libcStep q) (∅, false)).1)

/-! ## Core.CopyModules dependency closure (pkg/libs/Core.py 691-709) -/

def isWordChar (c : Char) : Bool :=
  c.isAlphanum || c = '_' || c = '-'

/-- Length of the maximal [a-zA-Z0-9_-]+ run at the head of `l`. -/
def wordRunLength : List Char → Nat
  | [] => 0
  | c :: rest => if isWordChar c then wordRunLength rest + 1 else 0

/-- Greedy backtracking for the regex tail `.ko`: try run lengths from `j`
down to 1; run length `k` succeeds when position `k` holds any character,
`k+1` holds 'k' and `k+2` holds 'o'. -/
def tryKOAt (l : List Char) : Nat → Option Nat
  | 0 => none
  | j + 1 =>
    if l.get? (j + 2) = some 'k' && l.get? (j + 3) = some 'o' then some (j + 1)
    else tryKOAt l j

/-- Leftmost match of re.search("(?<=/)[a-zA-Z0-9_-]+.ko", ...): at every
position preceded by '/', try the greedy word run with backtracking. -/
def regexSearchGo (prev : Option Char) : List Char → Option (List Char)
  | [] => none
  | c :: rest =>
    if prev = some '/' then
      match tryKOAt (c :: rest) (wordRunLength (c :: rest)) with
      | some j => some ((c :: rest).take (j + 3))
      | none => regexSearchGo (some c) rest
    else regexSearchGo (some c) rest

/-- match.group().split(".")[0] applied to the regex search over the module
file path; `none` when the regex does not match (the file is skipped). -/
def extractModuleName (file : String) : Option String :=
  (regexSearchGo none file.toList).map
    (fun m => String.mk (m.takeWhile (fun c => c ≠ '.')))

/-- The modprobe --show-depends pipeline: raw stdout for a bare module name. -/
structure ModQuery where
  modprobeOut : String → String

/-- Names contributed by one module file of _modset: extract the bare name,
query modprobe, strip, split on newlines, strip each line.  A file whose
path fails the regex contributes nothing. -/
def moduleDepNames (q : ModQuery) (file : String) : List String :=
  match extractModuleName file with
  | some sFile => (pySplit (Char.ofNat 10) (pyStrip (q.modprobeOut sFile))).map pyStrip
  | none => []

/-- The moddeps set built by the second loop of Core.CopyModules. -/
def copyModulesClosure (q : ModQuery) (modset : List String) : Finset String :=
  modset.foldl (fun acc file => acc ∪ (moduleDepNames q file).toFinset) ∅

/-! ## Core.FilterAndInstall / Core.VerifyBinariesExist
(pkg/libs/Core.py 589-594, 628-649) -/

/-- Whether `file -L <f> | grep "linked"` succeeds (exit 0); failure raises
CalledProcessError, caught with `pass`. -/
structure FileClassifier where
  isDynamicallyLinked : String → Bool

inductive FilterOutcome where
  /-- the loop over the manifest ran to completion -/
  | completed (binset : Finset String) (fs : FS)
  /-- Tools.Copy called Tools.Fail on this file (post-check, no dontFail) -/
  | copyFatal (file : String) (binset : Finset String) (fs : FS)
  /-- an uncaught exception escaped Tools.Copy on this file -/
  | copyCrashed (file : String) (binset : Finset String) (fs : FS)

/-- Model of Core.FilterAndInstall: per file, classification adds the file
to _binset on success and is silently ignored on failure (the except clause
is `pass`); the file is then copied via Tools.Copy with the dontFail flag. -/
def FilterAndInstall (cl : FileClassifier) (temp : String) (dontFail : Bool) :
    List String → Finset String → FS → FilterOutcome
  | [], binset, fs => .completed binset fs
  | f :: rest, binset, fs =>
    let binset' := if cl.isDynamicallyLinked (pyStrip f) then insert f binset else binset
    match Tools.Copy fs temp f none dontFail with
    | (fs', .ok) => FilterAndInstall cl temp dontFail rest binset' fs'
    | (fs', .warned) => FilterAndInstall cl temp dontFail rest binset' fs'
    | (fs', .failed) => .copyFatal f binset' fs'
    | (fs', .crashed) => .copyCrashed f binset' fs'

/-- Projection of a FilterOutcome that forgets the binary set: outcome kind,
file at which the run stopped (if any), and resulting filesystem. -/
def filterShape : FilterOutcome → Nat × Option String × FS
  | .completed _ fs => (0, none, fs)
  | .copyFatal f _ fs => (1, some f, fs)
  | .copyCrashed f _ fs => (2, some f, fs)

def filterBinset : FilterOutcome → Finset String
  | .completed b _ => b
  | .copyFatal _ b _ => b
  | .copyCrashed _ b _ => b

/-- Model of Core.VerifyBinariesExist: returns the first listed file that
does not exist (which triggers Tools.BinaryDoesntExist → Tools.Fail),
`none` when all exist. -/
def VerifyBinariesExist (fs : FS) : List String → Option String
  | [] => none
  | f :: rest => if pathExists fs f then VerifyBinariesExist fs rest else some f

/-! ## Generic lemmas about the filesystem model -/

theorem updateFS_self (fs : FS) (p : String) (e : Option Entry) :
    updateFS fs p e p = e := by
  simp [updateFS]

theorem updateFS_ne (fs : FS) (p q : String) (e : Option Entry) (h : q ≠ p) :
    updateFS fs p e q = fs q := by
  simp [updateFS, h]

theorem updateFS_updateFS (fs : FS) (p : String) (a b : Option Entry) :
    updateFS (updateFS fs p a) p b = updateFS fs p b := by
  funext q
  by_cases h : q = p <;> simp [updateFS, h]

theorem updateFS_eq_self (fs : FS) (p : String) (e : Option Entry) (h : fs p = e) :
    updateFS fs p e = fs := by
  funext q
  by_cases hq : q = p
  · subst hq; simp [updateFS, h]
  · simp [updateFS, hq]

theorem append_path_ne (temp t : String) : temp ++ "/" ++ t ≠ t := by
  intro h
  have hlen := congrArg String.length h
  simp only [String.length_append] at hlen
  have hone : ("/" : String).length = 1 := rfl
  omega

theorem mem_parentChain_self : ∀ (fuel : Nat) (d : String), d ∈ parentChain fuel d
  | 0, d => by simp [parentChain]
  | fuel + 1, d => by
    by_cases h : dirname d = "" ∨ dirname d = d <;> simp [parentChain, h]

theorem mkdirs_apply_of_isSome (fs : FS) (d p : String) (h : (fs p).isSome) :
    (mkdirs fs d).1 p = fs p := by
  have hne : ¬fs p = none := by
    cases hp : fs p
    · rw [hp] at h; simp at h
    · simp
  by_cases hc : ((parentChain d.length d).dropLast.any (fun a => isFile fs a)
      || (fs d).isSome) = true
  · simp [mkdirs, hc]
  · simp [mkdirs, hc, hne]

theorem mkdirs_leaf (fs : FS) (d : String) (h : (mkdirs fs d).2 = true) :
    (mkdirs fs d).1 d = some .dir := by
  unfold mkdirs at h ⊢
  by_cases hc : ((parentChain d.length d).dropLast.any (fun a => isFile fs a)
      || (fs d).isSome) = true
  · rw [if_pos hc] at h; simp at h
  · rw [if_neg hc] at h ⊢
    have hnone : fs d = none := by
      rcases hd : fs d with _ | e
      · rfl
      · exact absurd (by simp [hd]) hc
    simp [mem_parentChain_self, hnone]

/-! ## Claim C9: effect of selecting "zfs" -/

/-- C9: Selecting the feature "zfs" enables the Zfs hook and appends exactly
one new entry — the literal string "zfs" — to the Modules hook's file
manifest, and changes no other hook's enabled state or manifest. -/
theorem zfs_selection_effect (st : HookState) :
    featureLoop st ["zfs"] = .completed (applyZfsFeature st)
    ∧ (applyZfsFeature st).zfsEnabled = true
    ∧ (applyZfsFeature st).modulesFiles = st.modulesFiles ++ ["zfs"]
    ∧ (applyZfsFeature st).modulesFiles.length = st.modulesFiles.length + 1
    ∧ (applyZfsFeature st).baseEnabled = st.baseEnabled
    ∧ (applyZfsFeature st).modulesEnabled = st.modulesEnabled
    ∧ (applyZfsFeature st).luksEnabled = st.luksEnabled
    ∧ (applyZfsFeature st).firmwareEnabled = st.firmwareEnabled
    ∧ (applyZfsFeature st).baseFiles = st.baseFiles
    ∧ (applyZfsFeature st).zfsFiles = st.zfsFiles
    ∧ (applyZfsFeature st).luksFiles = st.luksFiles
    ∧ (applyZfsFeature st).firmwareFiles = st.firmwareFiles := by
  refine ⟨by simp [featureLoop], rfl, rfl, by simp [applyZfsFeature],
    rfl, rfl, rfl, rfl, rfl, rfl, rfl, rfl⟩

/-! ## Claim C5: unrecognized feature names -/

/-- The hook state as it stands when feature selection begins: Base and
Modules enabled, Zfs/Luks/Firmware disabled, empty manifests. -/
def initSelectState : HookState :=
  { baseEnabled := true, modulesEnabled := true, zfsEnabled := false,
    luksEnabled := false, firmwareEnabled := false,
    baseFiles := [], modulesFiles := [], zfsFiles := [], luksFiles := [],
    firmwareFiles := [] }

/-- Effect of one valid, non-"exit" feature name on the hook state. -/
def applyValidFeature (st : HookState) (f : String) : HookState :=
  if f = "zfs" then applyZfsFeature st
  else if f = "luks" then applyLuksFeature st
  else st

/-- C5 counterexample: with features ["zfs", "bogus"], selection does not
degrade to the list ["exit"]; it terminates via quit(1) with the earlier
valid name already in effect: the Zfs hook is enabled and the Modules
manifest has been modified. -/
theorem c5_partial_effects_counterexample :
    featureLoop initSelectState ["zfs", "bogus"]
      = .invalidQuit (applyZfsFeature initSelectState)
    ∧ (applyZfsFeature initSelectState).zfsEnabled = true
    ∧ (applyZfsFeature initSelectState).modulesFiles = ["zfs"] := by
  refine ⟨by simp [featureLoop], by decide, by decide⟩

/-- C5 (amended): a feature sequence whose first name outside
{"zfs","luks","basic"} is not "exit" terminates the process with exit
status 1 via quit(1) at that name (not with the list ["exit"]); at that
point the effects of all earlier valid names — hook enablement and
manifest appends — have already been applied. -/
theorem invalid_feature_quits_after_effects (st : HookState) (pre : List String)
    (f : String) (post : List String)
    (hpre : ∀ x ∈ pre, x = "zfs" ∨ x = "luks" ∨ x = "basic")
    (hf1 : f ≠ "zfs") (hf2 : f ≠ "luks") (hf3 : f ≠ "basic") (hf4 : f ≠ "exit") :
    featureLoop st (pre ++ f :: post)
      = .invalidQuit (pre.foldl applyValidFeature st) := by
  induction pre generalizing st with
  | nil => simp [featureLoop, hf1, hf2, hf3, hf4]
  | cons x xs ih =>
    have hx := hpre x (by simp)
    have hrest : ∀ y ∈ xs, y = "zfs" ∨ y = "luks" ∨ y = "basic" :=
      fun y hy => hpre y (by simp [hy])
    rcases hx with h | h | h <;> subst h <;>
      simp [featureLoop, applyValidFeature, ih _ hrest]

/-- C5 witness: instantiation at pre = ["luks"], f = "oops". -/
theorem invalid_feature_quits_witness :
    featureLoop initSelectState (["luks"] ++ "oops" :: [])
      = .invalidQuit (["luks"].foldl applyValidFeature initSelectState) :=
  invalid_feature_quits_after_effects initSelectState ["luks"] "oops" []
    (by decide) (by decide) (by decide) (by decide) (by decide)

/-! ## Claims C6 and C10: the numbered-feature converter -/

theorem convertGo_ret_exit (entries : List String) (acc : List String)
    (h1 : ∀ e ∈ entries, (pyParseInt e).isSome)
    (h2 : ∃ e ∈ entries, ((pyParseInt e).bind toolsFeatures) = none) :
    convertGo entries acc = .ret ["exit"] := by
  induction entries generalizing acc with
  | nil => simp at h2
  | cons e rest ih =>
    rcases hp : pyParseInt e with _ | n
    · have := h1 e (by simp)
      rw [hp] at this; simp at this
    · rcases hf : toolsFeatures n with _ | name
      · simp [convertGo, hp, hf]
      · simp only [convertGo, hp, hf]
        apply ih _ (fun x hx => h1 x (by simp [hx]))
        rcases h2 with ⟨x, hx, hbad⟩
        rcases List.mem_cons.mp hx with rfl | hx'
        · rw [hp, Option.some_bind, hf] at hbad; simp at hbad
        · exact ⟨x, hx', hbad⟩

theorem convertGo_ret_names (entries : List String) (acc : List String)
    (h : ∀ e ∈ entries, ((pyParseInt e).bind toolsFeatures).isSome) :
    convertGo entries acc
      = .ret (acc ++ entries.map
          (fun e => pyLower (((pyParseInt e).bind toolsFeatures).getD ""))) := by
  induction entries generalizing acc with
  | nil => simp [convertGo]
  | cons e rest ih =>
    have he := h e (by simp)
    rcases hp : pyParseInt e with _ | n
    · rw [hp] at he; simp at he
    · rcases hf : toolsFeatures n with _ | name
      · rw [hp, Option.some_bind, hf] at he; simp at he
      · simp only [convertGo, hp, hf]
        rw [ih _ (fun x hx => h x (by simp [hx]))]
        simp [hp, hf]

/-- C6: for a comma-separated input in which every entry parses as an
integer, the converter returns exactly ["exit"] as soon as any entry's code
lies outside the mapping {1: "ZFS", 2: "LUKS", 3: "Basic"}; otherwise it
returns the lowercase feature names in input order. -/
theorem convert_numbered_features_spec (input : String)
    (h1 : ∀ e ∈ pySplit ',' input, (pyParseInt e).isSome) :
    ((∃ e ∈ pySplit ',' input, ((pyParseInt e).bind toolsFeatures) = none) →
      ConvertNumberedFeaturesToNamedList input = .ret ["exit"])
    ∧ ((∀ e ∈ pySplit ',' input, ((pyParseInt e).bind toolsFeatures).isSome) →
      ConvertNumberedFeaturesToNamedList input
        = .ret ((pySplit ',' input).map
            (fun e => pyLower (((pyParseInt e).bind toolsFeatures).getD "")))) := by
  constructor
  · intro h2
    exact convertGo_ret_exit _ [] h1 h2
  · intro h2
    simpa using convertGo_ret_names (pySplit ',' input) [] h2

/-- C6 witness: "1,9" degrades to ["exit"]; "1,2" maps to its names. -/
theorem convert_numbered_features_witness :
    ConvertNumberedFeaturesToNamedList "1,9" = .ret ["exit"]
    ∧ ConvertNumberedFeaturesToNamedList "1,2"
        = .ret ((pySplit ',' "1,2").map
            (fun e => pyLower (((pyParseInt e).bind toolsFeatures).getD ""))) :=
  ⟨(convert_numbered_features_spec "1,9" (by decide)).1 (by decide),
   (convert_numbered_features_spec "1,2" (by decide)).2 (by decide)⟩

theorem convertGo_valueError (pre : List String) (e : String)
    (post : List String) (acc : List String)
    (hpre : ∀ x ∈ pre, ((pyParseInt x).bind toolsFeatures).isSome)
    (he : pyParseInt e = none) :
    convertGo (pre ++ e :: post) acc = .valueError e := by
  induction pre generalizing acc with
  | nil => simp [convertGo, he]
  | cons x xs ih =>
    have hx := hpre x (by simp)
    rcases hp : pyParseInt x with _ | n
    · rw [hp] at hx; simp at hx
    · rcases hf : toolsFeatures n with _ | name
      · rw [hp, Option.some_bind, hf] at hx; simp at hx
      · simp only [List.cons_append, convertGo, hp, hf]
        exact ih _ (fun y hy => hpre y (by simp [hy]))

/-- C10: the degradation to ["exit"] is triggered only by integer codes
absent from the mapping; an entry that does not parse as an integer and is
reached by the loop raises a ValueError that the except KeyError clause
does not catch, so the function returns no list at all. -/
theorem convert_value_error_uncaught (input : String) (pre : List String)
    (e : String) (post : List String)
    (hsplit : pySplit ',' input = pre ++ e :: post)
    (hpre : ∀ x ∈ pre, ((pyParseInt x).bind toolsFeatures).isSome)
    (he : pyParseInt e = none) :
    ConvertNumberedFeaturesToNamedList input = .valueError e
    ∧ ∀ l, ConvertNumberedFeaturesToNamedList input ≠ .ret l := by
  have hmain : ConvertNumberedFeaturesToNamedList input = .valueError e := by
    unfold ConvertNumberedFeaturesToNamedList
    rw [hsplit]
    exact convertGo_valueError pre e post [] hpre he
  exact ⟨hmain, fun l hl => by rw [hmain] at hl; exact ConvertResult.noConfusion hl⟩

/-- C10 witness: input "1,zfs" reaches the non-integer entry "zfs". -/
theorem convert_value_error_witness :
    ConvertNumberedFeaturesToNamedList "1,zfs" = .valueError "zfs"
    ∧ ∀ l, ConvertNumberedFeaturesToNamedList "1,zfs" ≠ .ret l :=
  convert_value_error_uncaught "1,zfs" ["1"] "zfs" []
    (by decide) (by decide) (by decide)

/-! ## Claim C4: the fatal unwind path -/

/-- A filesystem in which the build root and one entry under it exist. -/
def fsBuildRoot : FS :=
  fun p => if p = "/home/bi-1" ∨ p = "/home/bi-1/etc" then some .dir else none

/-- C4 (amended): every fatal error routed through Tools.Fail prints a
diagnostic, deletes the build root (and everything under it) when it
exists, and terminates with exit status 1 — never zero. -/
theorem fail_cleans_and_exits_nonzero (fs : FS) (temp : String) :
    (Tools.Fail fs temp).2 = 1
    ∧ (Tools.Fail fs temp).1 temp = none
    ∧ (∀ p, pathExists fs temp = true → strStartsWith (temp ++ "/") p = true →
        (Tools.Fail fs temp).1 p = none) := by
  refine ⟨rfl, ?_, ?_⟩
  · by_cases h : pathExists fs temp = true
    · simp [Tools.Fail, Tools.Clean, h, rmtree]
    · have : fs temp = none := by
        rcases hf : fs temp with _ | e
        · rfl
        · exact absurd (by simp [pathExists, hf]) h
      simp [Tools.Fail, Tools.Clean, h, this]
  · intro p hex hpre
    simp [Tools.Fail, Tools.Clean, hex, rmtree, hpre]

/-- C4 witness: instantiation at a filesystem holding a populated build
root. -/
theorem fail_cleans_witness :
    (Tools.Fail fsBuildRoot "/home/bi-1").2 = 1
    ∧ (Tools.Fail fsBuildRoot "/home/bi-1").1 "/home/bi-1" = none
    ∧ (Tools.Fail fsBuildRoot "/home/bi-1").1 "/home/bi-1/etc" = none :=
  ⟨(fail_cleans_and_exits_nonzero fsBuildRoot "/home/bi-1").1,
   (fail_cleans_and_exits_nonzero fsBuildRoot "/home/bi-1").2.1,
   (fail_cleans_and_exits_nonzero fsBuildRoot "/home/bi-1").2.2
     "/home/bi-1/etc" (by decide) (by decide)⟩

/-- C4 counterexample: the invalid-feature path of
Core.PrintMenuAndGetDesiredFeatures is a fatal error (exit status 1) that
does not funnel to Tools.Fail: it terminates via quit(1) with the
filesystem untouched, leaving an existing build-root directory in place,
whereas Tools.Fail would have deleted it. -/
theorem c4_direct_quit_counterexample :
    (PrintMenuAndGetDesiredFeatures fsBuildRoot initSelectState ["bogus"]).1
      = .invalidQuit initSelectState
    ∧ (PrintMenuAndGetDesiredFeatures fsBuildRoot initSelectState ["bogus"]).2
        "/home/bi-1" = some .dir
    ∧ (Tools.Fail fsBuildRoot "/home/bi-1").1 "/home/bi-1" = none := by
  refine ⟨by simp [PrintMenuAndGetDesiredFeatures, featureLoop], by decide, by decide⟩

/-! ## Claim C1: interpreter resolution in Core.CopyDependencies -/

theorem libcStep_of_not_matches (q : LibcQuery) (acc : Finset String × Bool)
    (p : String) (h : libcMatches q p = false) :
    libcStep q acc p = acc := by
  unfold libcStep
  by_cases hg : q.grepExit p ≠ 0 ∧ q.grepExit p ≠ 1
  · rw [if_pos hg]
  · rcases hls : q.lsOutput p with _ | i
    · rw [if_neg hg]
    · exfalso
      have hg0 : q.grepExit p = 0 ∨ q.grepExit p = 1 := by
        by_cases h0 : q.grepExit p = 0
        · exact Or.inl h0
        · by_cases hone : q.grepExit p = 1
          · exact Or.inr hone
          · exact absurd ⟨h0, hone⟩ hg
      unfold libcMatches at h
      rcases hg0 with hg0 | hg0 <;> rw [hg0] at h <;> simp [hls] at h

theorem libcStep_of_matches (q : LibcQuery) (acc : Finset String × Bool)
    (p : String) (h : libcMatches q p = true) :
    ∃ i, q.lsOutput p = some i ∧ libcStep q acc p = (insert i acc.1, true) := by
  unfold libcMatches at h
  rcases hls : q.lsOutput p with _ | i
  · rw [hls] at h; simp at h
  · refine ⟨i, rfl, ?_⟩
    have hg : ¬(q.grepExit p ≠ 0 ∧ q.grepExit p ≠ 1) := by
      intro hc
      rw [hls] at h
      simp [hc.1, hc.2] at h
    unfold libcStep
    rw [if_neg hg, hls]


theorem foldl_insert_superset (l : List String) (s : Finset String) :
    s ⊆ l.foldl (fun a x => insert x a) s := by
  induction l generalizing s with
  | nil => exact Finset.Subset.refl s
  | cons x xs ih =>
    exact (Finset.subset_insert x s).trans (ih (insert x s))

theorem bindeps_foldl_superset (q : LibcQuery) (l : List String)
    (s : Finset String) :
    s ⊆ l.foldl
      (fun bindeps binary =>
        (lddLibraries q binary).foldl (fun a x => insert x a) bindeps) s := by
  induction l generalizing s with
  | nil => exact Finset.Subset.refl s
  | cons b bs ih =>
    exact (foldl_insert_superset (lddLibraries q b) s).trans (ih _)

/-- C1 (amended): after a successful run of Core.CopyDependencies the
resolved interpreter path of every matching candidate loader pattern is a
member of the dependency set (there is no break after the first match, so
the set may contain more than one interpreter); when no candidate pattern
matches, the resolver fails fatally with the no-libc diagnostic. -/
theorem copyDependencies_interpreters (q : LibcQuery) (lib64 lib : String)
    (binset : List String) :
    (CopyDependencies q lib64 lib binset = .error "No libc interpreters were found!"
      ↔ ∀ p ∈ possibleLibcPaths lib64 lib, libcMatches q p = false)
    ∧ (∀ s p, CopyDependencies q lib64 lib binset = .ok s →
        p ∈ possibleLibcPaths lib64 lib → libcMatches q p = true →
        ∃ i, q.lsOutput p = some i ∧ i ∈ s) := by
  have hpaths : possibleLibcPaths lib64 lib
      = [lib64 ++ "/ld-linux-x86-64.so*", lib ++ "/ld-musl-x86_64.so*"] := rfl
  have hmem1 : lib64 ++ "/ld-linux-x86-64.so*" ∈ possibleLibcPaths lib64 lib := by
    rw [hpaths]; simp
  have hmem2 : lib ++ "/ld-musl-x86_64.so*" ∈ possibleLibcPaths lib64 lib := by
    rw [hpaths]; simp
  by_cases h1 : libcMatches q (lib64 ++ "/ld-linux-x86-64.so*") = true
  · obtain ⟨i1, hls1, hstep1⟩ := libcStep_of_matches q (∅, false) _ h1
    by_cases h2 : libcMatches q (lib ++ "/ld-musl-x86_64.so*") = true
    · obtain ⟨i2, hls2, hstep2⟩ := libcStep_of_matches q (insert i1 ∅, true) _ h2
      have hfold : (possibleLibcPaths lib64 lib).foldl (libcStep q) (∅, false)
          = (insert i2 (insert i1 ∅), true) := by
        rw [hpaths]
        simp only [List.foldl_cons, List.foldl_nil, hstep1]
        exact hstep2
      refine ⟨⟨fun herr => ?_, fun hall => ?_⟩, fun s p hok hp hm => ?_⟩
      · exfalso
        unfold CopyDependencies at herr
        rw [hfold] at herr
        simp at herr
      · have hf := hall _ hmem1
        rw [h1] at hf
        exact Bool.noConfusion hf
      · unfold CopyDependencies at hok
        rw [hfold] at hok
        simp at hok
        have hp2 : p = lib64 ++ "/ld-linux-x86-64.so*" ∨
            p = lib ++ "/ld-musl-x86_64.so*" := by
          rw [hpaths] at hp; simpa using hp
        rcases hp2 with rfl | rfl
        · exact ⟨i1, hls1, hok ▸ bindeps_foldl_superset q binset _ (by simp)⟩
        · exact ⟨i2, hls2, hok ▸ bindeps_foldl_superset q binset _ (by simp)⟩
    · have h2f : libcMatches q (lib ++ "/ld-musl-x86_64.so*") = false := by
        simpa using h2
      have hfold : (possibleLibcPaths lib64 lib).foldl (libcStep q) (∅, false)
          = (insert i1 ∅, true) := by
        rw [hpaths]
        simp only [List.foldl_cons, List.foldl_nil, hstep1]
        exact libcStep_of_not_matches q _ _ h2f
      refine ⟨⟨fun herr => ?_, fun hall => ?_⟩, fun s p hok hp hm => ?_⟩
      · exfalso
        unfold CopyDependencies at herr
        rw [hfold] at herr
        simp at herr
      · have hf := hall _ hmem1
        rw [h1] at hf
        exact Bool.noConfusion hf
      · unfold CopyDependencies at hok
        rw [hfold] at hok
        simp at hok
        have hp2 : p = lib64 ++ "/ld-linux-x86-64.so*" ∨
            p = lib ++ "/ld-musl-x86_64.so*" := by
          rw [hpaths] at hp; simpa using hp
        rcases hp2 with rfl | rfl
        · exact ⟨i1, hls1, hok ▸ bindeps_foldl_superset q binset _ (by simp)⟩
        · rw [h2f] at hm
          exact Bool.noConfusion hm
  · have h1f : libcMatches q (lib64 ++ "/ld-linux-x86-64.so*") = false := by
      simpa using h1
    have hstep1 : libcStep q (∅, false) (lib64 ++ "/ld-linux-x86-64.so*")
        = (∅, false) := libcStep_of_not_matches q _ _ h1f
    by_cases h2 : libcMatches q (lib ++ "/ld-musl-x86_64.so*") = true
    · obtain ⟨i2, hls2, hstep2⟩ := libcStep_of_matches q (∅, false) _ h2
      have hfold : (possibleLibcPaths lib64 lib).foldl (libcStep q) (∅, false)
          = (insert i2 ∅, true) := by
        rw [hpaths]
        simp only [List.foldl_cons, List.foldl_nil, hstep1]
        exact hstep2
      refine ⟨⟨fun herr => ?_, fun hall => ?_⟩, fun s p hok hp hm => ?_⟩
      · exfalso
        unfold CopyDependencies at herr
        rw [hfold] at herr
        simp at herr
      · have hf := hall _ hmem2
        rw [h2] at hf
        exact Bool.noConfusion hf
      · unfold CopyDependencies at hok
        rw [hfold] at hok
        simp at hok
        have hp2 : p = lib64 ++ "/ld-linux-x86-64.so*" ∨
            p = lib ++ "/ld-musl-x86_64.so*" := by
          rw [hpaths] at hp; simpa using hp
        rcases hp2 with rfl | rfl
        · rw [h1f] at hm
          exact Bool.noConfusion hm
        · exact ⟨i2, hls2, hok ▸ bindeps_foldl_superset q binset _ (by simp)⟩
    · have h2f : libcMatches q (lib ++ "/ld-musl-x86_64.so*") = false := by
        simpa using h2
      have hfold : (possibleLibcPaths lib64 lib).foldl (libcStep q) (∅, false)
          = (∅, false) := by
        rw [hpaths]
        simp only [List.foldl_cons, List.foldl_nil, hstep1]
        exact libcStep_of_not_matches q _ _ h2f
      refine ⟨⟨fun _ => ?_, fun _ => ?_⟩, fun s p hok hp hm => ?_⟩
      · intro p hp
        have hp2 : p = lib64 ++ "/ld-linux-x86-64.so*" ∨
            p = lib ++ "/ld-musl-x86_64.so*" := by
          rw [hpaths] at hp; simpa using hp
        rcases hp2 with rfl | rfl
        · exact h1f
        · exact h2f
      · unfold CopyDependencies
        rw [hfold]
        simp
      · exfalso
        unfold CopyDependencies at hok
        rw [hfold] at hok
        simp at hok

/-- A query on which only the musl-style pattern resolves. -/
def qMuslOnly : LibcQuery :=
  { grepExit := fun p => if p = "/lib/ld-musl-x86_64.so*" then 0 else 2
  , lsOutput := fun p =>
      if p = "/lib/ld-musl-x86_64.so*" then some "/lib/ld-musl-x86_64.so.1" else none
  , lddRaw := fun _ => "/lib/libc.so\n/lib/liblzma.so.5" }

/-- C1 witness: on a musl-only system with one binary, the resolved
interpreter is a member of the returned dependency set. -/
theorem copyDependencies_witness :
    ∃ i, qMuslOnly.lsOutput "/lib/ld-musl-x86_64.so*" = some i
      ∧ i ∈ ({"/lib/liblzma.so.5", "/lib/libc.so", "/lib/ld-musl-x86_64.so.1"} :
          Finset String) :=
  (copyDependencies_interpreters qMuslOnly "/lib64" "/lib" ["/bin/busybox"]).2
    {"/lib/liblzma.so.5", "/lib/libc.so", "/lib/ld-musl-x86_64.so.1"}
    "/lib/ld-musl-x86_64.so*" (by rfl) (by decide) (by decide)

/-- A query on which both loader patterns resolve, with distinct
interpreters. -/
def qBothLibcs : LibcQuery :=
  { grepExit := fun _ => 0
  , lsOutput := fun p =>
      if p = "/lib64/ld-linux-x86-64.so*" then some "/lib64/ld-linux-x86-64.so.2"
      else some "/lib/ld-musl-x86_64.so.1"
  , lddRaw := fun _ => "" }

/-- C1 counterexample: when both candidate loader patterns match (a system
with both a glibc and a musl loader), the loop adds both interpreters —
the resulting set contains two resolved interpreter paths, not exactly
one. -/
theorem c1_two_interpreters_counterexample :
    (∃ s, CopyDependencies qBothLibcs "/lib64" "/lib" [] = .ok s
      ∧ "/lib64/ld-linux-x86-64.so.2" ∈ s
      ∧ "/lib/ld-musl-x86_64.so.1" ∈ s
      ∧ s.card = 2)
    ∧ libcMatches qBothLibcs "/lib64/ld-linux-x86-64.so*" = true
    ∧ libcMatches qBothLibcs "/lib/ld-musl-x86_64.so*" = true := by
  refine ⟨⟨{"/lib/ld-musl-x86_64.so.1", "/lib64/ld-linux-x86-64.so.2"},
    by rfl, by decide, by decide, by decide⟩, by decide, by decide⟩

/-! ## Claim C3: the module dependency closure -/

theorem foldl_union_biUnion (g : String → Finset String) :
    ∀ (l : List String) (s : Finset String),
      l.foldl (fun acc f => acc ∪ g f) s = s ∪ l.toFinset.biUnion g := by
  intro l
  induction l with
  | nil => intro s; simp
  | cons x xs ih =>
    intro s
    rw [List.foldl_cons, ih (s ∪ g x), List.toFinset_cons, Finset.biUnion_insert,
      Finset.union_assoc]

/-- C3: the moddeps set of Core.CopyModules equals the deduplicated union,
over all resolved module files, of the trimmed names returned by the
per-module modprobe query, and it is invariant under reordering of the
iterated module set. -/
theorem module_closure_union_and_order (q : ModQuery) (l₁ l₂ : List String)
    (h : l₁.Perm l₂) :
    copyModulesClosure q l₁
      = l₁.toFinset.biUnion (fun f => (moduleDepNames q f).toFinset)
    ∧ copyModulesClosure q l₁ = copyModulesClosure q l₂ := by
  have e1 := foldl_union_biUnion (fun f => (moduleDepNames q f).toFinset) l₁ ∅
  have e2 := foldl_union_biUnion (fun f => (moduleDepNames q f).toFinset) l₂ ∅
  constructor
  · simpa [copyModulesClosure] using e1
  · have hperm : l₁.toFinset = l₂.toFinset := by
      ext a
      simp [List.mem_toFinset, h.mem_iff]
    unfold copyModulesClosure
    rw [e1, e2, hperm]

/-- A modprobe index for the witness: "zfs" expands to spl and zfs, any
other module only to itself. -/
def qModWitness : ModQuery :=
  { modprobeOut := fun s =>
      if s = "zfs" then "/l/spl.ko\n/l/zfs.ko\n" else "/l/" ++ s ++ ".ko" }

/-- C3 witness: instantiation at a two-module set and a permutation of it. -/
theorem module_closure_witness :
    copyModulesClosure qModWitness ["kernel/zfs.ko", "kernel/nvme.ko"]
      = (["kernel/zfs.ko", "kernel/nvme.ko"].toFinset).biUnion
          (fun f => (moduleDepNames qModWitness f).toFinset)
    ∧ copyModulesClosure qModWitness ["kernel/zfs.ko", "kernel/nvme.ko"]
      = copyModulesClosure qModWitness ["kernel/nvme.ko", "kernel/zfs.ko"] :=
  module_closure_union_and_order qModWitness
    ["kernel/zfs.ko", "kernel/nvme.ko"] ["kernel/nvme.ko", "kernel/zfs.ko"]
    (by decide)

/-! ## Claim C7: classification failure in Core.FilterAndInstall -/

/-- A classifier for which no file is reported as dynamically linked. -/
def clNever : FileClassifier :=
  { isDynamicallyLinked := fun _ => false }

/-- A filesystem holding one required file "s" (not a binary) and the build
root "t". -/
def fsOneFile : FS :=
  fun p => if p = "s" then some (.file 5) else if p = "t" then some .dir else none

/-- C7 counterexample: a required file that exists but cannot be classified
as a dynamically linked executable is processed without any fatal error —
the run completes (shape 0), the file is merely left out of the binary
set.  The dontFail flag is false, i.e. this is the required-file mode. -/
theorem c7_classification_nonfatal_counterexample :
    (filterShape (FilterAndInstall clNever "t" false ["s"] ∅ fsOneFile)).1 = 0
    ∧ filterBinset (FilterAndInstall clNever "t" false ["s"] ∅ fsOneFile) = ∅
    ∧ clNever.isDynamicallyLinked (pyStrip "s") = false := by
  refine ⟨by decide, by decide, by decide⟩

/-- C7 (amended): inside Core.FilterAndInstall a classification failure is
non-fatal for required and optional files alike — the outcome shape
(completion or copy fatality, the stopping file and the resulting
filesystem) is entirely independent of the classifier, which only affects
the accumulated binary set; a missing required file is instead reported by
the earlier Core.VerifyBinariesExist existence check, whose failure
(MissingBinary) is exactly the existence of a listed file absent from the
filesystem. -/
theorem filter_classifier_independent (cl₁ cl₂ : FileClassifier)
    (temp : String) (dontFail : Bool) (files : List String)
    (binset₁ binset₂ : Finset String) (fs : FS) :
    filterShape (FilterAndInstall cl₁ temp dontFail files binset₁ fs)
      = filterShape (FilterAndInstall cl₂ temp dontFail files binset₂ fs)
    ∧ (VerifyBinariesExist fs files = none ↔ ∀ f ∈ files, pathExists fs f = true)
    ∧ (∀ f, VerifyBinariesExist fs files = some f → pathExists fs f = false) := by
  refine ⟨?_, ?_, ?_⟩
  · induction files generalizing binset₁ binset₂ fs with
    | nil => rfl
    | cons f rest ih =>
      unfold FilterAndInstall
      rcases hc : Tools.Copy fs temp f none dontFail with ⟨fs', st⟩
      cases st
      · exact ih _ _ _
      · exact ih _ _ _
      · rfl
      · rfl
  · induction files with
    | nil => simp [VerifyBinariesExist]
    | cons f rest ih =>
      by_cases hf : pathExists fs f = true
      · simpa [VerifyBinariesExist, hf] using ih
      · simp [VerifyBinariesExist, hf]
  · induction files with
    | nil => intro f h; exact Option.noConfusion h
    | cons g rest ih =>
      intro f h
      unfold VerifyBinariesExist at h
      by_cases hg : pathExists fs g = true
      · rw [if_pos hg] at h
        exact ih f h
      · rw [if_neg hg] at h
        cases h
        simpa using hg

/-- A classifier for which every file is reported as dynamically linked. -/
def clAlways : FileClassifier :=
  { isDynamicallyLinked := fun _ => true }

/-- C7 witness: two opposite classifiers produce the same outcome shape on
a manifest with one present and one missing file, and the file returned by
VerifyBinariesExist is indeed absent. -/
theorem filter_classifier_witness :
    filterShape (FilterAndInstall clNever "t" false ["s", "missing"] ∅ fsOneFile)
      = filterShape (FilterAndInstall clAlways "t" false ["s", "missing"] ∅ fsOneFile)
    ∧ pathExists fsOneFile "missing" = false :=
  ⟨(filter_classifier_independent clNever clAlways "t" false ["s", "missing"]
      ∅ ∅ fsOneFile).1,
   (filter_classifier_independent clNever clAlways "t" false ["s", "missing"]
      ∅ ∅ fsOneFile).2.2 "missing" (by decide)⟩

/-! ## Claims C2 and C8: Tools.Copy semantics -/

theorem isFile_iff (fs : FS) (p : String) :
    isFile fs p = true ↔ ∃ c, fs p = some (.file c) := by
  unfold isFile
  rcases h : fs p with _ | e
  · simp
  · cases e <;> simp

theorem copyStep_replace (fs : FS) (path targetFile : String) (c : Nat)
    (hne : targetFile ≠ path)
    (hex : pathExists fs path = true) (hif : isFile fs path = true)
    (hsrc : fs targetFile = some (.file c)) :
    copyStep fs path targetFile = (updateFS fs path (some (.file c)), true) := by
  unfold copyStep
  rw [if_pos hex, if_pos hif, updateFS_ne fs path targetFile none hne, hsrc]
  dsimp only
  rw [updateFS_updateFS]

theorem copyStep_noop_on_nonfile_dest (fs : FS) (path targetFile : String)
    (hex : pathExists fs path = true) (hif : isFile fs path = false) :
    copyStep fs path targetFile = (fs, true) := by
  unfold copyStep
  rw [if_pos hex, if_neg (by simp [hif])]

theorem copyStep_new_file_dir_exists (fs : FS) (path targetFile : String) (c : Nat)
    (hex : pathExists fs path = false) (hsrc : fs targetFile = some (.file c))
    (hdir : isDir fs (dirname path) = true) :
    copyStep fs path targetFile = (updateFS fs path (some (.file c)), true) := by
  unfold copyStep
  rw [if_neg (by simp [hex]), if_pos (by simp [isFile, hsrc]), if_pos hdir]
  unfold copyFileTo
  rw [hsrc]

theorem copyStep_new_file_mkdirs (fs : FS) (path targetFile : String) (c : Nat)
    (hex : pathExists fs path = false) (hsrc : fs targetFile = some (.file c))
    (hdir : isDir fs (dirname path) = false)
    (hmk : (mkdirs fs (dirname path)).2 = true) :
    copyStep fs path targetFile
      = (updateFS (mkdirs fs (dirname path)).1 path (some (.file c)), true) := by
  unfold copyStep
  rw [if_neg (by simp [hex]), if_pos (by simp [isFile, hsrc]),
    if_neg (by simp [hdir])]
  dsimp only
  rw [if_pos hmk]
  unfold copyFileTo
  rw [mkdirs_apply_of_isSome fs (dirname path) targetFile (by rw [hsrc]; rfl), hsrc]

theorem copyStep_mkdirs_fail (fs : FS) (path targetFile : String) (c : Nat)
    (hex : pathExists fs path = false) (hsrc : fs targetFile = some (.file c))
    (hdir : isDir fs (dirname path) = false)
    (hmk : (mkdirs fs (dirname path)).2 = false) :
    (copyStep fs path targetFile).2 = false := by
  unfold copyStep
  rw [if_neg (by simp [hex]), if_pos (by simp [isFile, hsrc]),
    if_neg (by simp [hdir])]
  dsimp only
  rw [if_neg (by simp [hmk])]

theorem copyStep_dir_source (fs : FS) (path targetFile : String)
    (hex : pathExists fs path = false) (htf : isFile fs targetFile = false)
    (hdir : isDir fs targetFile = true) :
    copyStep fs path targetFile = mkdirs fs path := by
  unfold copyStep
  rw [if_neg (by simp [hex]), if_neg (by simp [htf]), if_pos hdir]

theorem copyStep_noop (fs : FS) (path targetFile : String)
    (hex : pathExists fs path = false) (htf : isFile fs targetFile = false)
    (hdir : isDir fs targetFile = false) :
    copyStep fs path targetFile = (fs, true) := by
  unfold copyStep
  rw [if_neg (by simp [hex]), if_neg (by simp [htf]), if_neg (by simp [hdir])]

/-- Running the body of Tools.Copy a second time on its own output changes
nothing, provided the first run raised no exception. -/
theorem copyStep_idem (fs : FS) (path targetFile : String)
    (hne : targetFile ≠ path)
    (h : (copyStep fs path targetFile).2 = true) :
    copyStep (copyStep fs path targetFile).1 path targetFile
      = ((copyStep fs path targetFile).1, true) := by
  by_cases hex : pathExists fs path = true
  · by_cases hif : isFile fs path = true
    · rcases hts : fs targetFile with _ | e
      · exfalso
        have hcrash : copyStep fs path targetFile = (updateFS fs path none, false) := by
          unfold copyStep
          rw [if_pos hex, if_pos hif, updateFS_ne fs path targetFile none hne, hts]
        rw [hcrash] at h
        exact Bool.noConfusion h
      · cases e with
        | dir =>
          exfalso
          have hcrash : copyStep fs path targetFile = (updateFS fs path none, false) := by
            unfold copyStep
            rw [if_pos hex, if_pos hif, updateFS_ne fs path targetFile none hne, hts]
          rw [hcrash] at h
          exact Bool.noConfusion h
        | file c =>
          have h1 := copyStep_replace fs path targetFile c hne hex hif hts
          rw [h1]
          dsimp only
          have h2 := copyStep_replace (updateFS fs path (some (.file c))) path
            targetFile c hne (by simp [pathExists, updateFS_self])
            (by simp [isFile, updateFS_self])
            (by rw [updateFS_ne _ _ _ _ hne, hts])
          rw [h2, updateFS_updateFS]
    · have hif' : isFile fs path = false := by simpa using hif
      rw [copyStep_noop_on_nonfile_dest fs path targetFile hex hif']
      exact copyStep_noop_on_nonfile_dest fs path targetFile hex hif'
  · have hex' : pathExists fs path = false := by simpa using hex
    by_cases htf : isFile fs targetFile = true
    · obtain ⟨c, hts⟩ := (isFile_iff fs targetFile).mp htf
      by_cases hdir : isDir fs (dirname path) = true
      · have h1 := copyStep_new_file_dir_exists fs path targetFile c hex' hts hdir
        rw [h1]
        dsimp only
        have h2 := copyStep_replace (updateFS fs path (some (.file c))) path
          targetFile c hne (by simp [pathExists, updateFS_self])
          (by simp [isFile, updateFS_self])
          (by rw [updateFS_ne _ _ _ _ hne, hts])
        rw [h2, updateFS_updateFS]
      · have hdir' : isDir fs (dirname path) = false := by simpa using hdir
        by_cases hmk : (mkdirs fs (dirname path)).2 = true
        · have h1 := copyStep_new_file_mkdirs fs path targetFile c hex' hts hdir' hmk
          rw [h1]
          dsimp only
          have hm1 : (mkdirs fs (dirname path)).1 targetFile = some (.file c) := by
            rw [mkdirs_apply_of_isSome fs (dirname path) targetFile
              (by rw [hts]; rfl), hts]
          have h2 := copyStep_replace
            (updateFS (mkdirs fs (dirname path)).1 path (some (.file c))) path
            targetFile c hne (by simp [pathExists, updateFS_self])
            (by simp [isFile, updateFS_self])
            (by rw [updateFS_ne _ _ _ _ hne, hm1])
          rw [h2, updateFS_updateFS]
        · exfalso
          have hmk' : (mkdirs fs (dirname path)).2 = false := by simpa using hmk
          have hf := copyStep_mkdirs_fail fs path targetFile c hex' hts hdir' hmk'
          rw [h] at hf
          exact Bool.noConfusion hf
    · have htf' : isFile fs targetFile = false := by simpa using htf
      by_cases hdirt : isDir fs targetFile = true
      · have h1 := copyStep_dir_source fs path targetFile hex' htf' hdirt
        rw [h1] at h ⊢
        have hleaf := mkdirs_leaf fs path h
        exact copyStep_noop_on_nonfile_dest _ path targetFile
          (by simp [pathExists, hleaf]) (by simp [isFile, hleaf])
      · have hdirt' : isDir fs targetFile = false := by simpa using hdirt
        rw [copyStep_noop fs path targetFile hex' htf' hdirt']
        exact copyStep_noop fs path targetFile hex' htf' hdirt'

/-- Tools.Copy as its body plus the final existence check. -/
theorem toolsCopy_decomp (fs : FS) (temp vFile : String)
    ( directoryPrefix : Option String) (dontFail : Bool) :
    Tools.Copy fs temp vFile directoryPrefix dontFail
      = ((copyStep fs (temp ++ "/" ++ copyTargetFile directoryPrefix vFile)
            (copyTargetFile directoryPrefix vFile)).1,
          if (copyStep fs (temp ++ "/" ++ copyTargetFile directoryPrefix vFile)
              (copyTargetFile directoryPrefix vFile)).2 = false then
            CopyStatus.crashed
          else if isFile (copyStep fs
              (temp ++ "/" ++ copyTargetFile directoryPrefix vFile)
              (copyTargetFile directoryPrefix vFile)).1
              (temp ++ "/" ++ copyTargetFile directoryPrefix vFile) then
            CopyStatus.ok
          else if dontFail then CopyStatus.warned
          else CopyStatus.failed) := by
  unfold Tools.Copy
  dsimp only
  by_cases h1 : (copyStep fs (temp ++ "/" ++ copyTargetFile directoryPrefix vFile)
      (copyTargetFile directoryPrefix vFile)).2 = false <;>
    by_cases h2 : isFile (copyStep fs
        (temp ++ "/" ++ copyTargetFile directoryPrefix vFile)
        (copyTargetFile directoryPrefix vFile)).1
        (temp ++ "/" ++ copyTargetFile directoryPrefix vFile) = true <;>
    by_cases h3 : dontFail = true <;>
    simp [h1, h2, h3]

/-- C2: Tools.Copy is idempotent — when a call returns (post-check passed,
or warned under dontFail), running the same call again on the resulting
filesystem returns the same filesystem and status; and when the destination
already exists as a regular file it is deleted and replaced by a fresh copy
of the source file's content, leaving no stale content. -/
theorem copy_idempotent_and_replaces (fs : FS) (temp vFile : String)
    ( directoryPrefix : Option String) (dontFail : Bool) :
    (((Tools.Copy fs temp vFile directoryPrefix dontFail).2 = CopyStatus.ok
        ∨ (Tools.Copy fs temp vFile directoryPrefix dontFail).2 = CopyStatus.warned) →
      Tools.Copy (Tools.Copy fs temp vFile directoryPrefix dontFail).1
          temp vFile directoryPrefix dontFail
        = Tools.Copy fs temp vFile directoryPrefix dontFail)
    ∧ (∀ oldc c,
        fs (temp ++ "/" ++ copyTargetFile directoryPrefix vFile)
          = some (.file oldc) →
        fs (copyTargetFile directoryPrefix vFile) = some (.file c) →
        (Tools.Copy fs temp vFile directoryPrefix dontFail).1
            (temp ++ "/" ++ copyTargetFile directoryPrefix vFile)
          = some (.file c)
        ∧ (Tools.Copy fs temp vFile directoryPrefix dontFail).2
          = CopyStatus.ok) := by
  have hne : copyTargetFile directoryPrefix vFile
      ≠ temp ++ "/" ++ copyTargetFile directoryPrefix vFile :=
    (append_path_ne temp (copyTargetFile directoryPrefix vFile)).symm
  have hdec := toolsCopy_decomp fs temp vFile directoryPrefix dontFail
  constructor
  · intro hst
    have hflag : (copyStep fs (temp ++ "/" ++ copyTargetFile directoryPrefix vFile)
        (copyTargetFile directoryPrefix vFile)).2 = true := by
      by_contra hf
      have hf' : (copyStep fs (temp ++ "/" ++ copyTargetFile directoryPrefix vFile)
          (copyTargetFile directoryPrefix vFile)).2 = false := by simpa using hf
      rcases hst with hst | hst <;> rw [hdec] at hst <;> simp [hf'] at hst
    have hidem := copyStep_idem fs
      (temp ++ "/" ++ copyTargetFile directoryPrefix vFile)
      (copyTargetFile directoryPrefix vFile) hne hflag
    have hdec2 := toolsCopy_decomp
      (copyStep fs (temp ++ "/" ++ copyTargetFile directoryPrefix vFile)
        (copyTargetFile directoryPrefix vFile)).1
      temp vFile directoryPrefix dontFail
    rw [hdec, hdec2, hidem]
    simp [hflag]
  · intro oldc c hdest hsrc
    have h1 := copyStep_replace fs
      (temp ++ "/" ++ copyTargetFile directoryPrefix vFile)
      (copyTargetFile directoryPrefix vFile) c hne
      (by simp [pathExists, hdest]) (by simp [isFile, hdest]) hsrc
    rw [hdec]
    constructor
    · simp [h1, updateFS_self]
    · simp [h1, isFile, updateFS_self]

/-- A filesystem where the destination t/s already holds stale content 9,
the source file "s" holds content 5, and the build root "t" exists. -/
def fsStaleDest : FS :=
  fun p =>
    if p = "s" then some (.file 5)
    else if p = "t/s" then some (.file 9)
    else if p = "t" then some .dir
    else none

/-- C2 witness: instantiation at a state with a stale destination file. -/
theorem copy_idempotent_witness :
    (Tools.Copy fsStaleDest "t" "s" none false).2 = CopyStatus.ok
    ∧ Tools.Copy (Tools.Copy fsStaleDest "t" "s" none false).1 "t" "s" none false
        = Tools.Copy fsStaleDest "t" "s" none false
    ∧ (Tools.Copy fsStaleDest "t" "s" none false).1
        ("t" ++ "/" ++ copyTargetFile none "s") = some (.file 5) :=
  ⟨by decide,
   (copy_idempotent_and_replaces fsStaleDest "t" "s" none false).1
     (Or.inl (by decide)),
   ((copy_idempotent_and_replaces fsStaleDest "t" "s" none false).2 9 5
     (by decide) (by decide)).1⟩

/-- C8 (amended): when the source is a directory (no regular file at that
path) and the destination does not yet exist, an empty directory marker is
created at the destination; but the unconditional post-copy check that the
destination is a regular file then fails, so the call is fatal unless
dontFail is set, in which case it warns and the pipeline continues. -/
theorem copy_directory_marker (fs : FS) (temp vFile : String)
    ( directoryPrefix : Option String) (dontFail : Bool)
    (hdest : pathExists fs (temp ++ "/" ++ copyTargetFile directoryPrefix vFile)
      = false)
    (hnotfile : isFile fs (copyTargetFile directoryPrefix vFile) = false)
    (hdir : isDir fs (copyTargetFile directoryPrefix vFile) = true)
    (hmk : (mkdirs fs (temp ++ "/" ++ copyTargetFile directoryPrefix vFile)).2
      = true) :
    (Tools.Copy fs temp vFile directoryPrefix dontFail).1
        (temp ++ "/" ++ copyTargetFile directoryPrefix vFile) = some .dir
    ∧ (Tools.Copy fs temp vFile directoryPrefix dontFail).2
        = (if dontFail then CopyStatus.warned else CopyStatus.failed) := by
  have h1 := copyStep_dir_source fs
    (temp ++ "/" ++ copyTargetFile directoryPrefix vFile)
    (copyTargetFile directoryPrefix vFile) hdest hnotfile hdir
  have hleaf := mkdirs_leaf fs
    (temp ++ "/" ++ copyTargetFile directoryPrefix vFile) hmk
  have hdec := toolsCopy_decomp fs temp vFile directoryPrefix dontFail
  rw [hdec]
  constructor
  · simp [h1, hleaf]
  · simp [h1, hmk, hleaf, isFile]

/-- A filesystem with a source directory "d" and the build root "t". -/
def fsDirSource : FS :=
  fun p => if p = "d" then some .dir else if p = "t" then some .dir else none

/-- C8 counterexample: copying a directory source without dontFail creates
the directory marker but then fails fatally (Tools.Fail) at the post-copy
file check — the pipeline does not continue past the copy. -/
theorem c8_directory_copy_fatal_counterexample :
    (Tools.Copy fsDirSource "t" "d" none false).2 = CopyStatus.failed
    ∧ (Tools.Copy fsDirSource "t" "d" none false).1 "t/d" = some .dir := by
  refine ⟨by decide, by decide⟩

/-- C8 witness: with dontFail set (the tolerated mode), the marker is
created and the call warns instead of failing, so the pipeline continues. -/
theorem copy_directory_marker_witness :
    (Tools.Copy fsDirSource "t" "d" none true).1
        ("t" ++ "/" ++ copyTargetFile none "d") = some .dir
    ∧ (Tools.Copy fsDirSource "t" "d" none true).2
        = (if true then CopyStatus.warned else CopyStatus.failed) :=
  copy_directory_marker fsDirSource "t" "d" none true
    (by decide) (by decide) (by decide) (by decide)

end Bliss
